import Mathlib

/-!
Verification of the citation subsystem of the switzerland-law-mcp server.

The development shallowly embeds the TypeScript sources:

* `src/tools/validate-citation.ts` — `parseCitation`, `validateCitationTool`
* `src/tools/format-citation.ts`  — `formatCitationTool`
* `src/utils/statute-id.ts`       — `resolveDocumentId`
* `src/utils/metadata.ts`         — `generateResponseMetadata`
* `src/tools/registry.ts`         — the CallTool dispatch handler

Strings are Lean `String`s; the SQLite store is a record of row lists; each
`db.prepare(...).get(...)` call (all of them are SELECTs) becomes a primitive
that returns its answer together with the (unchanged) store, so that the
read-only discipline of the tools is visible in the embedding.

The JavaScript regular expressions are compiled by hand into deterministic
matchers.  Each compilation step is justified where backtracking could in
principle matter; the only place where backtracking is observable is the
`\s+(.+)$` tail of the article-first pattern and the lazy `(.+?)` prefix of
the article-last pattern, both of which are implemented with explicit
backtracking loops.
-/

/-! ## Character classes (ECMAScript semantics)

`\s` in ECMAScript is WhiteSpace ∪ LineTerminator, which is also exactly the
set of characters removed by `String.prototype.trim`.  `.` matches any
character except a LineTerminator.  Under the `i` flag (without `u`),
canonicalisation never folds a non-ASCII character onto an ASCII one, so
`[a-z]` with `i` is exactly the ASCII letters. -/

def isJsWs (c : Char) : Bool :=
  decide (c.toNat = 0x9 ∨ c.toNat = 0xA ∨ c.toNat = 0xB ∨ c.toNat = 0xC ∨
    c.toNat = 0xD ∨ c.toNat = 0x20 ∨ c.toNat = 0xA0 ∨ c.toNat = 0x1680 ∨
    (0x2000 ≤ c.toNat ∧ c.toNat ≤ 0x200A) ∨ c.toNat = 0x2028 ∨
    c.toNat = 0x2029 ∨ c.toNat = 0x202F ∨ c.toNat = 0x205F ∨
    c.toNat = 0x3000 ∨ c.toNat = 0xFEFF)

def isLineTermC (c : Char) : Bool :=
  decide (c.toNat = 0xA ∨ c.toNat = 0xD ∨ c.toNat = 0x2028 ∨ c.toNat = 0x2029)

/-- The characters matched by `.` (anything but a line terminator). -/
def isDotC (c : Char) : Bool := !isLineTermC c

def isDigitChar (c : Char) : Bool := decide (48 ≤ c.toNat ∧ c.toNat ≤ 57)

/-- `[a-z]` under the `i` flag: the ASCII letters. -/
def isLetterChar (c : Char) : Bool :=
  decide ((65 ≤ c.toNat ∧ c.toNat ≤ 90) ∨ (97 ≤ c.toNat ∧ c.toNat ≤ 122))

/-- `[\d.]` of the SR-number patterns. -/
def isNumDotC (c : Char) : Bool := isDigitChar c || c = '.'

/-- ASCII lower-casing, as performed by SQLite `LOWER` and by SQLite's
default `LIKE` comparison. -/
def asciiLower (c : Char) : Char :=
  if 65 ≤ c.toNat ∧ c.toNat ≤ 90 then Char.ofNat (c.toNat + 32) else c

def asciiLowerStr (s : String) : String := ⟨s.data.map asciiLower⟩

/-- `String.prototype.trim`. -/
def jsTrim (s : String) : String :=
  ⟨((s.data.dropWhile isJsWs).reverse.dropWhile isJsWs).reverse⟩

/-! ## SQLite `LIKE`

SQLite's default `LIKE` is case-insensitive on the ASCII range; `%` matches
any sequence, `_` any single character. -/

/-- Wildcard matcher worker.  Every recursive call shrinks the pattern or
the text, so `pat.length + text.length + 1` units of fuel always suffice;
the fuel only makes the recursion structural. -/
def likeMatchFuel : Nat → List Char → List Char → Bool
  | 0, _, _ => false
  | _ + 1, [], [] => true
  | _ + 1, [], _ :: _ => false
  | f + 1, '%' :: ps, t =>
    likeMatchFuel f ps t ||
      (match t with
       | [] => false
       | _ :: ts => likeMatchFuel f ('%' :: ps) ts)
  | _ + 1, '_' :: _, [] => false
  | f + 1, '_' :: ps, _ :: ts => likeMatchFuel f ps ts
  | _ + 1, _ :: _, [] => false
  | f + 1, p :: ps, c :: ts => (asciiLower p = asciiLower c) && likeMatchFuel f ps ts

def likeMatch (pat text : List Char) : Bool :=
  likeMatchFuel (pat.length + text.length + 1) pat text

/-- `column LIKE pattern` for a non-NULL text column. -/
def colLike (hay pat : String) : Bool := likeMatch pat.data hay.data

/-- `column LIKE pattern` when the column may be NULL (a NULL comparison is
not true). -/
def optColLike : Option String → String → Bool
  | none, _ => false
  | some h, pat => colLike h pat

/-! ## Compiled regex matchers

`parseCitation` (validate-citation.ts lines 31–54) uses three anchored
patterns, `formatCitationTool` (format-citation.ts lines 26–27) two; all of
them are built from the same pieces, compiled below. -/

/-- `Art\.?\s*` with the `i` flag, applied at the start of the input: the
literal `Art` (ASCII case folding), an optional dot, then `\s*`.

Both choices are deterministic: if the optional dot is present but not
consumed, the following `\s*\d` cannot match a dot, and a whitespace
character handed back by `\s*` cannot start `\d+`. -/
def stripArtDot (cs : List Char) : Option (List Char) :=
  match cs with
  | a :: r :: t :: rest =>
    if (a = 'A' ∨ a = 'a') ∧ (r = 'R' ∨ r = 'r') ∧ (t = 'T' ∨ t = 't') then
      some ((match rest with
             | '.' :: rs => rs
             | rs => rs).dropWhile isJsWs)
    else none
  | _ => none

/-- The article-number capture group.

In validate-citation.ts this is
`\d+(?:bis|ter|quater|quinquies|sexies|septies|octies|novies|decies)?[a-z]*`,
in format-citation.ts it is `\d+[a-z]*(?:bis|ter)?`; under the `i` flag both
denote "one or more digits followed by any run of ASCII letters", because the
optional Latin-ordinal alternation is absorbed by `[a-z]*`.  What follows the
group in every enclosing pattern (`\s+`, `$`) can never match a digit or a
letter, so the greedy maximal run is the unique candidate.

Returns the captured group together with the rest of the input. -/
def artNumSplit (cs : List Char) : Option (List Char × List Char) :=
  let ds := cs.takeWhile isDigitChar
  if ds = [] then none
  else
    let r1 := cs.dropWhile isDigitChar
    some (ds ++ r1.takeWhile isLetterChar, r1.dropWhile isLetterChar)

/-- Backtracking loop for `\s+(.+)$`: `consumedRev` is the reversed list of
whitespace characters currently consumed by `\s+` (always at least one), `r`
the rest of the input.  `(.+)$` succeeds iff `r` is a non-empty run of
non-line-terminators; otherwise `\s+` hands characters back one at a time,
but never below one. -/
def wsBack : List Char → List Char → Option (List Char)
  | consumedRev, r =>
    if r ≠ [] ∧ r.all isDotC then some r
    else
      match consumedRev with
      | [] => none
      | [_] => none
      | c :: rest => wsBack rest (c :: r)

/-- `\s+(.+)$` (the tail of the article-first patterns), returning the `(.+)`
capture. -/
def wsTail (cs : List Char) : Option (List Char) :=
  let m := cs.takeWhile isJsWs
  if m = [] then none else wsBack m.reverse (cs.dropWhile isJsWs)

/-- `^Art\.?\s*(<article-number>)\s+(.+)$` with the `i` flag — the
article-first pattern of both validate-citation.ts (line 35) and
format-citation.ts (line 26).  Returns (group 1, group 2). -/
def artFirstMatch (cs : List Char) : Option (List Char × List Char) :=
  match stripArtDot cs with
  | none => none
  | some cs₁ =>
    match artNumSplit cs₁ with
    | none => none
    | some (g1, rest) =>
      match wsTail rest with
      | none => none
      | some law => some (g1, law)

/-- `[,;]?\s*Art\.?\s*(<article-number>)$` applied to the whole of `cs`,
returning the capture group.  `[,;]?` is deterministic: if the leading
comma/semicolon is present but skipped, the following `\s*Art` is stuck on
it. -/
def artLastTail (cs : List Char) : Option (List Char) :=
  let cs₀ := match cs with
             | c :: rest => if c = ',' ∨ c = ';' then rest else cs
             | [] => cs
  match stripArtDot (cs₀.dropWhile isJsWs) with
  | none => none
  | some cs₁ =>
    match artNumSplit cs₁ with
    | some (g, []) => some g
    | _ => none

/-- Lazy search loop for `^(.+?)[,;]?\s*Art\.?\s*(<article-number>)$`:
the prefix grows one character at a time (smallest first, as `(.+?)` does);
every prefix character must match `.`, so the search stops at the first line
terminator. -/
def artLastGo : List Char → List Char → Option (List Char × List Char)
  | preRev, rest =>
    match rest with
    | [] => none
    | c :: rest' =>
      if isLineTermC c then none
      else
        match artLastTail rest' with
        | some g2 => some ((c :: preRev).reverse, g2)
        | none => artLastGo (c :: preRev) rest'

/-- `^(.+?)[,;]?\s*Art\.?\s*(<article-number>)$` with the `i` flag — the
article-last pattern of validate-citation.ts (line 41) and
format-citation.ts (line 27).  Returns (group 1, group 2). -/
def artLastMatch (cs : List Char) : Option (List Char × List Char) :=
  artLastGo [] cs

/-- Greedy `(\.\d+)*` worker: consume dot-digit groups as long as a dot is
immediately followed by a digit.  Every recursion drops at least two
characters of the input, so `l.length + 1` units of fuel always suffice; the
fuel only makes the recursion structural. -/
def dotGroupsFuel : Nat → List Char → List Char
  | 0, _ => []
  | f + 1, '.' :: c :: rest =>
    if isDigitChar c then
      '.' :: c :: rest.takeWhile isDigitChar ++
        dotGroupsFuel f (rest.dropWhile isDigitChar)
    else []
  | _ + 1, _ => []

/-- Greedy `(\.\d+)*`. -/
def dotGroups (l : List Char) : List Char := dotGroupsFuel (l.length + 1) l

/-- The unanchored search `/(?:SR\s*)?(\d+(?:\.\d+)*)/i` of
statute-id.ts line 71: the first match's group 1 is the earliest maximal
digit run together with its dot-digit continuations (the optional `SR`
prefix only moves the match start, not the capture). -/
def srExtract : List Char → Option (List Char)
  | [] => none
  | c :: rest =>
    if isDigitChar c then
      some (c :: rest.takeWhile isDigitChar ++ dotGroups (rest.dropWhile isDigitChar))
    else srExtract rest

/-- `^SR\s*([\d.]+)\s*[,;]?\s*Art\.?\s*(\d+[a-z]*)$` with the `i` flag —
the explicit-SR pattern of validate-citation.ts line 47.  All quantifier
choices are deterministic for the reasons given on the pieces above. -/
def srArtMatch (cs : List Char) : Option (List Char × List Char) :=
  match cs with
  | s :: r :: rest =>
    if (s = 'S' ∨ s = 's') ∧ (r = 'R' ∨ r = 'r') then
      let cs₁ := rest.dropWhile isJsWs
      let num := cs₁.takeWhile isNumDotC
      if num = [] then none
      else
        let cs₂ := (cs₁.dropWhile isNumDotC).dropWhile isJsWs
        let cs₃ := match cs₂ with
                   | c :: t => if c = ',' ∨ c = ';' then t else cs₂
                   | [] => cs₂
        match stripArtDot (cs₃.dropWhile isJsWs) with
        | none => none
        | some cs₄ =>
          match artNumSplit cs₄ with
          | some (g2, []) => some (num, g2)
          | _ => none
    else none
  | _ => none

/-! ## The citation parser (validate-citation.ts lines 31–54) -/

structure ParsedCitation where
  documentRef : String
  articleRef : Option String := none
deriving DecidableEq

/-- `parseCitation` of validate-citation.ts.  The three patterns are tried
in source order; the final fallback returns the whole trimmed string as a
bare document reference. -/
def parseCitation (citation : String) : Option ParsedCitation :=
  let trimmed := jsTrim citation
  match artFirstMatch trimmed.data with
  | some (g1, g2) => some { documentRef := jsTrim ⟨g2⟩, articleRef := some ⟨g1⟩ }
  | none =>
    match artLastMatch trimmed.data with
    | some (g1, g2) => some { documentRef := jsTrim ⟨g1⟩, articleRef := some ⟨g2⟩ }
    | none =>
      match srArtMatch trimmed.data with
      | some (num, g2) =>
        some { documentRef := "SR " ++ ⟨num⟩, articleRef := some ⟨g2⟩ }
      | none => some { documentRef := trimmed }

/-! ## format_citation (format-citation.ts) -/

structure FormatCitationInput where
  citation : String
  format : Option String := none
deriving DecidableEq

structure FormatCitationResult where
  original : String
  formatted : String
  format : String
deriving DecidableEq

/-- `law.split('(')[0]` — everything before the first opening parenthesis. -/
def beforeParen (s : String) : String := ⟨s.data.takeWhile (· ≠ '(')⟩

/-- `formatCitationTool` of format-citation.ts.  The tool takes no database
handle; it is a pure function of its input. -/
def formatCitationTool (input : FormatCitationInput) : FormatCitationResult :=
  let format := input.format.getD "full"
  let trimmed := jsTrim input.citation
  let artFirst := artFirstMatch trimmed.data
  let artLast := artLastMatch trimmed.data
  let article : Option String :=
    match artFirst with
    | some (g1, _) => some ⟨g1⟩
    | none =>
      match artLast with
      | some (_, g2) => some ⟨g2⟩
      | none => none
  let law : String :=
    match artFirst with
    | some (_, g2) => ⟨g2⟩
    | none =>
      match artLast with
      | some (g1, _) => ⟨g1⟩
      | none => trimmed
  let formatted :=
    if format = "short" then
      match article with
      | some a => "Art. " ++ a ++ " " ++ jsTrim (beforeParen law)
      | none => law
    else if format = "pinpoint" then
      match article with
      | some a => "Art. " ++ a
      | none => law
    else
      match article with
      | some a => "Art. " ++ a ++ " " ++ law
      | none => law
  { original := input.citation, formatted := formatted, format := format }

/-! ## The store

Rows of the tables touched by the subsystem under verification.  `find?`
models `.get()` of a prepared SELECT: the first row in the store's natural
order satisfying the WHERE clause.  NULLable columns are `Option`s; a
comparison against NULL is not true. -/

structure LegalDoc where
  id : String
  title : String
  short_name : Option String := none
  title_en : Option String := none
  status : String
deriving DecidableEq

structure LegalProvision where
  document_id : String
  provision_ref : String
  sectionLabel : Option String := none
deriving DecidableEq

/-- `dbMetadata = none` models the `db_metadata` table being absent, in
which case the freshness query throws. -/
structure Store where
  docs : List LegalDoc
  provisions : List LegalProvision
  dbMetadata : Option (List (String × String)) := none
deriving DecidableEq

/-- A SELECT against `legal_documents`: the first row satisfying the WHERE
clause, and the store, which a SELECT leaves unchanged. -/
def dbFindDoc (p : LegalDoc → Bool) (s : Store) : Option LegalDoc × Store :=
  (s.docs.find? p, s)

/-- A SELECT against `legal_provisions`. -/
def dbFindProvision (p : LegalProvision → Bool) (s : Store) :
    Option LegalProvision × Store :=
  (s.provisions.find? p, s)

/-- `SELECT value FROM db_metadata WHERE key = 'built_at'`; throws when the
table is absent. -/
def dbBuiltAt (s : Store) : Except String (Option String) × Store :=
  (match s.dbMetadata with
   | none => .error "no such table: db_metadata"
   | some rows => .ok ((rows.find? (fun kv => kv.1 == "built_at")).map (·.2)),
   s)

/-! ## Response metadata (metadata.ts lines 19–41) -/

structure ResponseMetadata where
  data_source : String
  jurisdiction : String
  disclaimer : String
  freshness : Option String := none
deriving DecidableEq

def dataSourceText : String :=
  "Fedlex (fedlex.admin.ch) — Swiss Federal Chancellery"

def disclaimerText : String :=
  "This data is sourced from Fedlex under Open Government Data principles. " ++
  "The authoritative versions are in German, French, and Italian. " ++
  "English translations are unofficial. Always verify with the official Fedlex portal."

/-- `generateResponseMetadata` of metadata.ts: the freshness read is wrapped
in try/catch; a throw is swallowed and leaves `freshness` unset. -/
def generateResponseMetadataRun (s : Store) : ResponseMetadata × Store :=
  let fr := dbBuiltAt s
  let freshness : Option String :=
    match fr.1 with
    | .ok v => v
    | .error _ => none
  ({ data_source := dataSourceText, jurisdiction := "CH",
     disclaimer := disclaimerText, freshness := freshness }, fr.2)

def generateResponseMetadata (s : Store) : ResponseMetadata :=
  (generateResponseMetadataRun s).1

structure ToolResponse (α : Type) where
  results : α
  respMetadata : ResponseMetadata
deriving DecidableEq

/-! ## resolveDocumentId (statute-id.ts lines 57–93) -/

/-- `srNumber.replace(/\./g, '-')`. -/
def dashify (s : String) : String :=
  ⟨s.data.map (fun c => if c = '.' then '-' else c)⟩

/-- The title/short-name fuzzy steps of `resolveDocumentId` (lines 80–90):
a `LIKE` pass, then the `LOWER(...) LIKE LOWER(...)` fallback.  Both
branches of the source's fall-through reach this code. -/
def resolveTitleFallbackRun (trimmed : String) (s : Store) :
    Option String × Store :=
  let pat := "%" ++ trimmed ++ "%"
  let r1 := dbFindDoc
    (fun d => colLike d.title pat || optColLike d.short_name pat ||
      optColLike d.title_en pat) s
  match r1.1 with
  | some d => (some d.id, r1.2)
  | none =>
    let r2 := dbFindDoc
      (fun d => colLike (asciiLowerStr d.title) (asciiLowerStr pat) ||
        optColLike (d.short_name.map asciiLowerStr) (asciiLowerStr pat) ||
        optColLike (d.title_en.map asciiLowerStr) (asciiLowerStr pat)) r1.2
    match r2.1 with
    | some d => (some d.id, r2.2)
    | none => (none, r2.2)

/-- `resolveDocumentId` of statute-id.ts, with the store threaded through
every query. -/
def resolveDocumentIdRun (input : String) (s : Store) : Option String × Store :=
  let trimmed := jsTrim input
  if trimmed = "" then (none, s)
  else
    let direct := dbFindDoc (fun d => d.id == trimmed) s
    match direct.1 with
    | some d => (some d.id, direct.2)
    | none =>
      match srExtract trimmed.data with
      | some num =>
        let srNumber : String := ⟨num⟩
        let srRes := dbFindDoc
          (fun d => colLike d.id ("%sr-" ++ dashify srNumber ++ "%") ||
            optColLike d.short_name ("%" ++ srNumber ++ "%")) direct.2
        match srRes.1 with
        | some d => (some d.id, srRes.2)
        | none => resolveTitleFallbackRun trimmed srRes.2
      | none => resolveTitleFallbackRun trimmed direct.2

def resolveDocumentId (s : Store) (input : String) : Option String :=
  (resolveDocumentIdRun input s).1

/-! ## validate_citation (validate-citation.ts lines 56–141) -/

structure ValidateCitationResult where
  valid : Bool
  citation : String
  normalized : Option String := none
  document_id : Option String := none
  document_title : Option String := none
  provision_ref : Option String := none
  status : Option String := none
  warnings : List String
deriving DecidableEq

def parseFailWarning : String := "Could not parse citation format"

def docNotFoundWarning (ref : String) : String :=
  "Document not found: \"" ++ ref ++ "\""

def repealedWarning : String := "WARNING: This statute has been repealed."

def amendedWarning : String :=
  "Note: This statute has been amended. Verify you are referencing the current version."

def provisionNotFoundWarning (ref title : String) : String :=
  "Provision \"" ++ ref ++ "\" not found in " ++ title

/-- The status-dependent warnings pushed at lines 90–94 of
validate-citation.ts. -/
def statusWarnings (status : String) : List String :=
  if status = "repealed" then [repealedWarning]
  else if status = "amended" then [amendedWarning]
  else []

/-- The WHERE clause of the provision lookup at line 98:
`document_id = ? AND (provision_ref = ? OR provision_ref = 'art'+ref OR
section = ?)`. -/
def provisionWhere (docId articleRef : String) (p : LegalProvision) : Bool :=
  p.document_id == docId &&
    (p.provision_ref == articleRef || p.provision_ref == ("art" ++ articleRef) ||
      p.sectionLabel == some articleRef)

/-- `validateCitationTool` of validate-citation.ts, with the store threaded
through every query.  The untyped read `doc.status` on a row that the
non-null cast pretends exists becomes the `.error` branch (a thrown
TypeError); it is proved unreachable below. -/
def validateCitationToolRun (input : String) (s : Store) :
    Except String (ToolResponse ValidateCitationResult) × Store :=
  match parseCitation input with
  | none =>
    let m := generateResponseMetadataRun s
    (.ok { results := { valid := false, citation := input,
                        warnings := [parseFailWarning] },
           respMetadata := m.1 }, m.2)
  | some parsed =>
    let docIdR := resolveDocumentIdRun parsed.documentRef s
    match docIdR.1 with
    | none =>
      let m := generateResponseMetadataRun docIdR.2
      (.ok { results := { valid := false, citation := input,
                          warnings := [docNotFoundWarning parsed.documentRef] },
             respMetadata := m.1 }, m.2)
    | some docId =>
      let docR := dbFindDoc (fun d => d.id == docId) docIdR.2
      match docR.1 with
      | none => (.error "TypeError: cannot read properties of undefined", docR.2)
      | some doc =>
        let warnings := statusWarnings doc.status
        match parsed.articleRef with
        | some articleRef =>
          let provR := dbFindProvision (provisionWhere docId articleRef) docR.2
          match provR.1 with
          | none =>
            let m := generateResponseMetadataRun provR.2
            (.ok { results := { valid := false, citation := input,
                                document_id := some docId,
                                document_title := some doc.title,
                                warnings := warnings ++
                                  [provisionNotFoundWarning articleRef doc.title] },
                   respMetadata := m.1 }, m.2)
          | some provision =>
            let m := generateResponseMetadataRun provR.2
            (.ok { results := { valid := true, citation := input,
                                normalized :=
                                  some ("Art. " ++ articleRef ++ " " ++ doc.title),
                                document_id := some docId,
                                document_title := some doc.title,
                                provision_ref := some provision.provision_ref,
                                status := some doc.status,
                                warnings := warnings },
                   respMetadata := m.1 }, m.2)
        | none =>
          let m := generateResponseMetadataRun docR.2
          (.ok { results := { valid := true, citation := input,
                              normalized := some doc.title,
                              document_id := some docId,
                              document_title := some doc.title,
                              status := some doc.status,
                              warnings := warnings },
                 respMetadata := m.1 }, m.2)

def validateCitationTool (s : Store) (input : String) :
    Except String (ToolResponse ValidateCitationResult) :=
  (validateCitationToolRun input s).1

/-! ## The CallTool dispatch handler (registry.ts lines 335–405) -/

structure CallResponse where
  text : String
  isError : Bool
deriving DecidableEq

/-- The case labels of the dispatch switch. -/
def knownCallToolCases : List String :=
  ["search_legislation", "get_provision", "validate_citation",
   "build_legal_stance", "format_citation", "check_currency", "get_eu_basis",
   "get_swiss_implementations", "search_eu_implementations",
   "get_provision_eu_basis", "validate_eu_compliance", "list_sources", "about"]

/-- The CallTool request handler installed by `registerTools`.  `run` stands
for the tool handlers the switch dispatches to (their sources live in other
files); `.error m` models a handler throwing with message `m`, which the
surrounding try/catch converts into an error-flagged response.  An unknown
name takes the switch's default branch; `about` without a configured context
returns its own error-flagged response. -/
def callToolHandler (run : String → Except String String) (hasContext : Bool)
    (name : String) : CallResponse :=
  if knownCallToolCases.contains name then
    if name = "about" ∧ hasContext = false then
      { text := "About tool not configured.", isError := true }
    else
      match run name with
      | .ok r => { text := r, isError := false }
      | .error m => { text := "Error: " ++ m, isError := true }
  else
    { text := "Error: Unknown tool \"" ++ name ++ "\".", isError := true }

/-! ## Concrete stores used by witnesses and counterexamples -/

def sampleStore : Store :=
  { docs :=
      [{ id := "sr-235-1", title := "Bundesgesetz über den Datenschutz",
         short_name := some "DSG",
         title_en := some "Federal Act on Data Protection",
         status := "in_force" },
       { id := "sr-old-1", title := "Altes Bundesgesetz",
         short_name := some "AltG", status := "repealed" },
       { id := "sr-amd-1", title := "Revidiertes Gesetz",
         short_name := some "RevG", status := "amended" }],
    provisions :=
      [{ document_id := "sr-235-1", provision_ref := "art1", sectionLabel := some "1" },
       { document_id := "sr-old-1", provision_ref := "art2", sectionLabel := some "2" },
       { document_id := "sr-amd-1", provision_ref := "art3", sectionLabel := some "3" }],
    dbMetadata := some [("built_at", "2026-01-01T00:00:00Z")] }

/-- A store whose `db_metadata` table is absent (used by the C8 witness and
as an empty store elsewhere). -/
def failStore : Store := { docs := [], provisions := [] }

/-- A store with two round-trip-hostile documents: one title with a leading
space, and one bare title that itself parses as an article-last citation
(C4). -/
def cxStore : Store :=
  { docs := [{ id := "d1", title := " X", short_name := some "DSG",
               status := "in_force" },
             { id := "d2", title := "Gesetz Art. 5", short_name := some "GG",
               status := "in_force" }],
    provisions := [{ document_id := "d1", provision_ref := "art6",
                     sectionLabel := some "6" }] }

/-- A canonical document id is non-empty and has no surrounding whitespace
(§3 of the spec: ids are canonical, derived from the statute numbering). -/
def canonicalId (id : String) : Prop := id ≠ "" ∧ jsTrim id = id

/-- Well-formedness of a stored title for the round-trip: non-empty, free
of line terminators, and not padded with whitespace.  (Stated with
`Option.all` so that it is decidable on concrete stores.) -/
def goodTitle (t : String) : Prop :=
  t.data ≠ [] ∧ (∀ c ∈ t.data, isDotC c = true) ∧
    t.data.head?.all (fun c => !isJsWs c) = true ∧
    t.data.getLast?.all (fun c => !isJsWs c) = true

/-- A title that does not itself parse as an article citation. -/
def titleNotCitation (t : String) : Prop :=
  artFirstMatch t.data = none ∧ artLastMatch t.data = none

instance (t : String) : Decidable (goodTitle t) := by
  unfold goodTitle
  infer_instance

instance (t : String) : Decidable (titleNotCitation t) := by
  unfold titleNotCitation
  infer_instance

/-! ## Basic lemmas about the embedding -/

theorem resolveTitleFallbackRun_state (t : String) (s : Store) :
    (resolveTitleFallbackRun t s).2 = s := by
  simp only [resolveTitleFallbackRun, dbFindDoc]
  split
  · rfl
  · split <;> rfl

theorem resolveDocumentIdRun_state (i : String) (s : Store) :
    (resolveDocumentIdRun i s).2 = s := by
  simp only [resolveDocumentIdRun, dbFindDoc]
  split
  · rfl
  · split
    · rfl
    · split
      · split
        · rfl
        · exact resolveTitleFallbackRun_state _ _
      · exact resolveTitleFallbackRun_state _ _

/-- A resolver call is equivalent to its pure answer next to the unchanged
store. -/
theorem resolveDocumentIdRun_eq (i : String) (s : Store) :
    resolveDocumentIdRun i s = (resolveDocumentId s i, s) := by
  have h := resolveDocumentIdRun_state i s
  calc resolveDocumentIdRun i s
      = ((resolveDocumentIdRun i s).1, (resolveDocumentIdRun i s).2) := rfl
    _ = (resolveDocumentId s i, s) := by rw [h]; rfl

theorem generateResponseMetadataRun_eq (s : Store) :
    generateResponseMetadataRun s = (generateResponseMetadata s, s) := rfl

theorem validateCitationToolRun_state (i : String) (s : Store) :
    (validateCitationToolRun i s).2 = s := by
  simp only [validateCitationToolRun]
  split
  · rfl
  · split
    · exact resolveDocumentIdRun_state _ _
    · split
      · exact resolveDocumentIdRun_state _ _
      · split
        · split
          · exact resolveDocumentIdRun_state _ _
          · exact resolveDocumentIdRun_state _ _
        · exact resolveDocumentIdRun_state _ _

/-- A validate call is equivalent to its pure answer next to the unchanged
store. -/
theorem validateCitationToolRun_eq (i : String) (s : Store) :
    validateCitationToolRun i s = (validateCitationTool s i, s) := by
  have h := validateCitationToolRun_state i s
  calc validateCitationToolRun i s
      = ((validateCitationToolRun i s).1, (validateCitationToolRun i s).2) := rfl
    _ = (validateCitationTool s i, s) := by rw [h]; rfl

/-- The parser's bare-document fallback makes it total: no input, not even
the empty string, is unparseable. -/
theorem parseCitation_isSome (citation : String) :
    (parseCitation citation).isSome := by
  simp only [parseCitation]
  split
  · rfl
  · split
    · rfl
    · split <;> rfl

/-- Every id the title/short-name fallback returns is the id of a stored
document. -/
theorem resolveTitleFallbackRun_mem {t : String} {s : Store} {id : String}
    (h : (resolveTitleFallbackRun t s).1 = some id) :
    ∃ d ∈ s.docs, d.id = id := by
  simp only [resolveTitleFallbackRun, dbFindDoc] at h
  split at h
  · rename_i d heq
    exact ⟨d, List.mem_of_find?_eq_some heq, by simpa using h⟩
  · split at h
    · rename_i d heq
      exact ⟨d, List.mem_of_find?_eq_some heq, by simpa using h⟩
    · simp at h

/-- Every id the resolver returns is the id of a stored document. -/
theorem resolveDocumentId_mem {s : Store} {i : String} {id : String}
    (h : resolveDocumentId s i = some id) :
    ∃ d ∈ s.docs, d.id = id := by
  unfold resolveDocumentId at h
  simp only [resolveDocumentIdRun, dbFindDoc] at h
  split at h
  · simp at h
  · split at h
    · rename_i d heq
      exact ⟨d, List.mem_of_find?_eq_some heq, by simpa using h⟩
    · split at h
      · split at h
        · rename_i d heq
          exact ⟨d, List.mem_of_find?_eq_some heq, by simpa using h⟩
        · exact resolveTitleFallbackRun_mem h
      · exact resolveTitleFallbackRun_mem h

/-- The document row re-read by id after a successful resolution always
exists (the resolver only returns stored ids), so the unchecked
`doc.status` access of the source never faults: `validateCitationTool`
always returns `.ok`, and every branch echoes the raw input in the
`citation` field. -/
theorem validateCitationTool_total_echo (s : Store) (input : String) :
    ∃ r, validateCitationTool s input = .ok r ∧ r.results.citation = input := by
  obtain ⟨p, hp⟩ : ∃ p, parseCitation input = some p := by
    rcases h : parseCitation input with _ | p
    · exact absurd (parseCitation_isSome input) (by simp [h])
    · exact ⟨p, rfl⟩
  unfold validateCitationTool
  simp only [validateCitationToolRun, hp, resolveDocumentIdRun_eq,
    generateResponseMetadataRun_eq, dbFindDoc, dbFindProvision]
  cases hr : resolveDocumentId s p.documentRef with
  | none => exact ⟨_, rfl, rfl⟩
  | some docId =>
    obtain ⟨d, hdmem, hdid⟩ := resolveDocumentId_mem hr
    rcases hfe : s.docs.find? (fun d => d.id == docId) with _ | doc
    · rw [List.find?_eq_none] at hfe
      exact absurd (hfe d hdmem) (by simp [hdid])
    · simp only [hfe]
      cases ha : p.articleRef with
      | none => exact ⟨_, rfl, rfl⟩
      | some articleRef =>
        cases hpr : s.provisions.find? (provisionWhere docId articleRef) with
        | none => simp only [hpr]; exact ⟨_, rfl, rfl⟩
        | some prov => simp only [hpr]; exact ⟨_, rfl, rfl⟩

theorem strData_append (a b : String) : (a ++ b).data = a.data ++ b.data := rfl

/-- A document-not-found warning never coincides with the parse-failure
warning (their first characters differ). -/
theorem docNotFound_ne_parseFail (ref : String) :
    docNotFoundWarning ref ≠ parseFailWarning := by
  intro h
  have h2 : (docNotFoundWarning ref).data.head? = parseFailWarning.data.head? := by
    rw [h]
  have e1 : (docNotFoundWarning ref).data.head? = some 'D' := by
    show (("Document not found: \"" ++ ref) ++ "\"").data.head? = some 'D'
    rw [strData_append, strData_append,
      show ("Document not found: \"").data = 'D' :: ("ocument not found: \"").data
        from rfl]
    simp
  rw [e1, show parseFailWarning.data.head? = some 'C' from rfl] at h2
  simp at h2

/-- A provision-not-found warning never coincides with the parse-failure
warning (their first characters differ). -/
theorem provNotFound_ne_parseFail (ref title : String) :
    provisionNotFoundWarning ref title ≠ parseFailWarning := by
  intro h
  have h2 : (provisionNotFoundWarning ref title).data.head? =
      parseFailWarning.data.head? := by rw [h]
  have e1 : (provisionNotFoundWarning ref title).data.head? = some 'P' := by
    show ((("Provision \"" ++ ref) ++ "\" not found in ") ++ title).data.head? =
      some 'P'
    rw [strData_append, strData_append, strData_append,
      show ("Provision \"").data = 'P' :: ("rovision \"").data from rfl]
    simp
  rw [e1, show parseFailWarning.data.head? = some 'C' from rfl] at h2
  simp at h2

theorem statusWarnings_ne_parseFail (st : String) :
    statusWarnings st ≠ [parseFailWarning] := by
  unfold statusWarnings
  split
  · intro h
    simp only [List.cons.injEq, and_true] at h
    exact absurd h (by decide)
  · split
    · intro h
      simp only [List.cons.injEq, and_true] at h
      exact absurd h (by decide)
    · simp

theorem statusWarnings_append_ne_parseFail (st ref title : String) :
    statusWarnings st ++ [provisionNotFoundWarning ref title] ≠
      [parseFailWarning] := by
  unfold statusWarnings
  split
  · simp
  · split
    · simp
    · intro h
      simp only [List.nil_append, List.cons.injEq, and_true] at h
      exact provNotFound_ne_parseFail ref title h

/-! ## The claims -/

/-- C1, counterexample: the claim says the parser returns Unparseable
exactly on input that is empty after trimming, and that `validate_citation`
answers such input with the "Could not parse citation format" warning.  On
the empty string the parser instead returns a bare parse with an empty
document reference, and `validate_citation` emits a document-not-found
warning, not the parse-failure warning. -/
theorem parseCitation_empty_not_unparseable :
    parseCitation "" ≠ none ∧
    (validateCitationTool failStore "").map (fun r => r.results.warnings) =
      .ok [docNotFoundWarning ""] :=
  ⟨by decide, by rfl⟩

/-- C1, amended: the parser never returns Unparseable — the bare-document
fallback succeeds on every input, including ones that are empty after
trimming; consequently the parse-failure branch of `validate_citation` is
dead code and no result ever carries the "Could not parse citation format"
warning. -/
theorem parser_never_unparseable (cit : String) :
    (parseCitation cit).isSome ∧
    ∀ (s : Store) (r : ToolResponse ValidateCitationResult),
      validateCitationTool s cit = .ok r →
      r.results.warnings ≠ [parseFailWarning] := by
  refine ⟨parseCitation_isSome cit, ?_⟩
  intro s r h
  obtain ⟨p, hp⟩ : ∃ p, parseCitation cit = some p := by
    rcases hq : parseCitation cit with _ | p
    · exact absurd (parseCitation_isSome cit) (by simp [hq])
    · exact ⟨p, rfl⟩
  unfold validateCitationTool at h
  simp only [validateCitationToolRun, hp, resolveDocumentIdRun_eq,
    generateResponseMetadataRun_eq, dbFindDoc, dbFindProvision] at h
  cases hr : resolveDocumentId s p.documentRef with
  | none =>
    simp only [hr] at h
    cases h
    intro hw
    simp only [List.cons.injEq, and_true] at hw
    exact docNotFound_ne_parseFail p.documentRef hw
  | some docId =>
    simp only [hr] at h
    cases hfe : s.docs.find? (fun d => d.id == docId) with
    | none =>
      simp only [hfe] at h
      exact Except.noConfusion h
    | some doc =>
      simp only [hfe] at h
      cases ha : p.articleRef with
      | none =>
        simp only [ha] at h
        cases h
        exact statusWarnings_ne_parseFail doc.status
      | some articleRef =>
        simp only [ha] at h
        cases hpr : s.provisions.find? (provisionWhere docId articleRef) with
        | none =>
          simp only [hpr] at h
          cases h
          exact statusWarnings_append_ne_parseFail doc.status articleRef doc.title
        | some prov =>
          simp only [hpr] at h
          cases h
          exact statusWarnings_ne_parseFail doc.status

/-- C1 witness: the amended theorem applied at the empty citation and the
metadata-less store, discharging the `.ok` hypothesis on the concrete
response. -/
theorem parser_never_unparseable_witness :
    (parseCitation "").isSome ∧
    ({ results := { valid := false, citation := "",
                    warnings := [docNotFoundWarning ""] },
       respMetadata := generateResponseMetadata failStore } :
        ToolResponse ValidateCitationResult).results.warnings ≠
      [parseFailWarning] :=
  ⟨(parser_never_unparseable "").1,
   (parser_never_unparseable "").2 failStore _ (by rfl)⟩

/-- C2: when the citation parses, the document resolves and re-reads, but
no provision of that document matches the parsed article reference under the
raw token, the "art"-prefixed token, or the section label, the tool returns
`valid := false`, appends the provision-not-found warning to the status
warnings, and still reports the resolved document id and title. -/
theorem validate_provision_not_found (s : Store) (input : String)
    (p : ParsedCitation) (articleRef docId : String) (doc : LegalDoc)
    (h1 : parseCitation input = some p)
    (h2 : p.articleRef = some articleRef)
    (h3 : resolveDocumentId s p.documentRef = some docId)
    (h4 : s.docs.find? (fun d => d.id == docId) = some doc)
    (h5 : s.provisions.find? (provisionWhere docId articleRef) = none) :
    validateCitationTool s input =
      .ok { results := { valid := false, citation := input,
                         document_id := some docId,
                         document_title := some doc.title,
                         warnings := statusWarnings doc.status ++
                           [provisionNotFoundWarning articleRef doc.title] },
            respMetadata := generateResponseMetadata s } := by
  unfold validateCitationTool
  simp only [validateCitationToolRun, h1, resolveDocumentIdRun_eq, h3,
    dbFindDoc, h4, h2, dbFindProvision, h5, generateResponseMetadataRun_eq]

/-- C2 witness: `validate_citation("Art. 999999 DSG")` against the sample
store — partial resolution is preserved. -/
theorem validate_provision_not_found_witness :
    validateCitationTool sampleStore "Art. 999999 DSG" =
      .ok { results := { valid := false, citation := "Art. 999999 DSG",
                         document_id := some "sr-235-1",
                         document_title := some "Bundesgesetz über den Datenschutz",
                         warnings := statusWarnings "in_force" ++
                           [provisionNotFoundWarning "999999"
                             "Bundesgesetz über den Datenschutz"] },
            respMetadata := generateResponseMetadata sampleStore } :=
  validate_provision_not_found sampleStore "Art. 999999 DSG"
    { documentRef := "DSG", articleRef := some "999999" } "999999" "sr-235-1"
    { id := "sr-235-1", title := "Bundesgesetz über den Datenschutz",
      short_name := some "DSG", title_en := some "Federal Act on Data Protection",
      status := "in_force" }
    (by decide) rfl (by decide) (by rfl) (by rfl)

/-- C3: the three documented surface syntaxes parse to the documented
document-reference/article-reference pairs. -/
theorem parseCitation_surface_syntaxes :
    parseCitation "Art. 6 DSG" =
      some { documentRef := "DSG", articleRef := some "6" } ∧
    parseCitation "DSG, Art. 6" =
      some { documentRef := "DSG", articleRef := some "6" } ∧
    parseCitation "SR 235.1 Art. 6" =
      some { documentRef := "SR 235.1", articleRef := some "6" } :=
  ⟨by decide, by decide, by decide⟩

/-- C5: exact-id resolution is reflexive — for a stored document with a
canonical id, the resolver's first step (the exact id match) wins and
returns that id. -/
theorem resolve_id_reflexive (s : Store) (d : LegalDoc) (hd : d ∈ s.docs)
    (h : canonicalId d.id) : resolveDocumentId s d.id = some d.id := by
  obtain ⟨hne, htrim⟩ := h
  unfold resolveDocumentId
  simp only [resolveDocumentIdRun, dbFindDoc, htrim]
  rw [if_neg hne]
  rcases hf : s.docs.find? (fun x => x.id == d.id) with _ | d'
  · rw [List.find?_eq_none] at hf
    exact absurd (hf d hd) (by simp)
  · have heq := List.find?_some hf
    simp only [beq_iff_eq] at heq
    simp [hf, heq]

/-- C5 witness: reflexive resolution of the sample store's first id. -/
theorem resolve_id_reflexive_witness :
    resolveDocumentId sampleStore "sr-235-1" = some "sr-235-1" :=
  resolve_id_reflexive sampleStore
    { id := "sr-235-1", title := "Bundesgesetz über den Datenschutz",
      short_name := some "DSG", title_en := some "Federal Act on Data Protection",
      status := "in_force" }
    (by decide) ⟨by decide, by decide⟩

/-- C6: for a citation that resolves, a repealed document contributes the
repeal warning and an amended one the currency advisory; neither warning
invalidates the citation — when the referenced provision exists, or no
provision was referenced, the result is `valid := true` with the status
warnings attached. -/
theorem validate_status_warnings_nonfatal (s : Store) (input : String)
    (p : ParsedCitation) (docId : String) (doc : LegalDoc)
    (h1 : parseCitation input = some p)
    (h3 : resolveDocumentId s p.documentRef = some docId)
    (h4 : s.docs.find? (fun d => d.id == docId) = some doc)
    (h5 : p.articleRef = none ∨ ∃ articleRef prov, p.articleRef = some articleRef ∧
        s.provisions.find? (provisionWhere docId articleRef) = some prov) :
    ∃ r, validateCitationTool s input = .ok r ∧ r.results.valid = true ∧
      r.results.warnings = statusWarnings doc.status ∧
      (doc.status = "repealed" → r.results.warnings = [repealedWarning]) ∧
      (doc.status = "amended" → r.results.warnings = [amendedWarning]) := by
  unfold validateCitationTool
  simp only [validateCitationToolRun, h1, resolveDocumentIdRun_eq, h3,
    dbFindDoc, h4, dbFindProvision, generateResponseMetadataRun_eq]
  rcases h5 with h5 | ⟨articleRef, prov, ha, hf⟩
  · simp only [h5]
    exact ⟨_, rfl, rfl, rfl,
      fun hst => by simp [statusWarnings, hst],
      fun hst => by simp [statusWarnings, hst]⟩
  · simp only [ha, hf]
    exact ⟨_, rfl, rfl, rfl,
      fun hst => by simp [statusWarnings, hst],
      fun hst => by simp [statusWarnings, hst]⟩

/-- C6 witness: a citation into the repealed sample statute validates with
exactly the repeal warning. -/
theorem validate_status_warnings_nonfatal_witness :
    ∃ r, validateCitationTool sampleStore "Art. 2 AltG" = .ok r ∧
      r.results.valid = true ∧ r.results.warnings = statusWarnings "repealed" ∧
      (("repealed" : String) = "repealed" → r.results.warnings = [repealedWarning]) ∧
      (("repealed" : String) = "amended" → r.results.warnings = [amendedWarning]) :=
  validate_status_warnings_nonfatal sampleStore "Art. 2 AltG"
    { documentRef := "AltG", articleRef := some "2" } "sr-old-1"
    { id := "sr-old-1", title := "Altes Bundesgesetz", short_name := some "AltG",
      status := "repealed" }
    (by decide) (by decide) (by rfl)
    (Or.inr ⟨"2", { document_id := "sr-old-1", provision_ref := "art2",
                    sectionLabel := some "2" }, rfl, by rfl⟩)

/-- C7: the dispatch handler never aborts — an unknown tool name takes the
switch's default branch and yields the error-flagged unknown-tool response,
and a handler that throws is caught by the surrounding try/catch and
converted into an error-flagged response. -/
theorem callToolHandler_never_aborts (run : String → Except String String)
    (hasContext : Bool) (name : String) :
    (knownCallToolCases.contains name = false →
      callToolHandler run hasContext name =
        { text := "Error: Unknown tool \"" ++ name ++ "\".", isError := true }) ∧
    (∀ m, run name = .error m →
      (callToolHandler run hasContext name).isError = true) := by
  constructor
  · intro h
    have h' : ¬ (name ∈ knownCallToolCases) := by simpa using h
    simp [callToolHandler, h']
  · intro m hm
    simp only [callToolHandler]
    split
    · split
      · rfl
      · simp [hm]
    · rfl

/-- C7 witness: the unknown-tool branch and the throwing-handler branch at
concrete inputs. -/
theorem callToolHandler_never_aborts_witness :
    callToolHandler (fun _ => .error "boom") true "no_such_tool" =
      { text := "Error: Unknown tool \"no_such_tool\".", isError := true } ∧
    (callToolHandler (fun _ => .error "boom") true "validate_citation").isError =
      true :=
  ⟨(callToolHandler_never_aborts (fun _ => .error "boom") true "no_such_tool").1
      (by decide),
   (callToolHandler_never_aborts (fun _ => .error "boom") true
      "validate_citation").2 "boom" rfl⟩

/-- C8: the provenance block always carries the constant data source,
jurisdiction and disclaimer, and a throwing freshness read (absent
`db_metadata` table) is swallowed: `freshness` is simply absent and no
error propagates (the function's type has no error outcome). -/
theorem generateResponseMetadata_swallows_failure (s : Store) :
    (generateResponseMetadata s).data_source = dataSourceText ∧
    (generateResponseMetadata s).jurisdiction = "CH" ∧
    (generateResponseMetadata s).disclaimer = disclaimerText ∧
    (∀ e, (dbBuiltAt s).1 = .error e →
      (generateResponseMetadata s).freshness = none) := by
  refine ⟨rfl, rfl, rfl, ?_⟩
  intro e he
  simp [generateResponseMetadata, generateResponseMetadataRun, he]

/-- C8 witness: against the store without a `db_metadata` table, freshness
is absent while the rest of the block is populated. -/
theorem generateResponseMetadata_swallows_failure_witness :
    (generateResponseMetadata failStore).freshness = none ∧
    (generateResponseMetadata failStore).jurisdiction = "CH" :=
  ⟨(generateResponseMetadata_swallows_failure failStore).2.2.2
      "no such table: db_metadata" rfl,
   (generateResponseMetadata_swallows_failure failStore).2.1⟩

/-- C9: the tools are read-only and deterministic — a validate call leaves
the store unchanged, a second call with the same argument against the
resulting store returns the same answer, and `format_citation` (which takes
no store at all) trivially agrees with itself. -/
theorem readonly_tools_idempotent (s : Store) (input : String)
    (fi : FormatCitationInput) :
    (validateCitationToolRun input s).2 = s ∧
    (validateCitationToolRun input (validateCitationToolRun input s).2).1 =
      (validateCitationToolRun input s).1 ∧
    formatCitationTool fi = formatCitationTool fi := by
  refine ⟨validateCitationToolRun_state input s, ?_, rfl⟩
  rw [validateCitationToolRun_state input s]

/-- C10: every branch of `validate_citation` — valid, document-not-found,
or provision-not-found — returns `.ok` (never a thrown error) and echoes
the raw, untrimmed input string in the `citation` field; the `warnings`
field is present in every branch by the shape of
`ValidateCitationResult`. -/
theorem validate_echoes_citation (s : Store) (input : String) :
    ∃ r, validateCitationTool s input = .ok r ∧ r.results.citation = input :=
  validateCitationTool_total_echo s input

/-- C4, counterexample: a stored title with a leading space yields the
normalized citation "Art. 6  X" (two spaces), which `format_citation`
collapses to "Art. 6 X"; and the bare normalized title "Gesetz Art. 5"
matches the article-last pattern, so `format_citation` rewrites it to
"Art. 5 Gesetz" — both round-trips fail. -/
theorem format_roundtrip_counterexample :
    ((validateCitationTool cxStore "Art. 6 DSG").map
        (fun r => r.results.normalized) = .ok (some "Art. 6  X") ∧
      (formatCitationTool { citation := "Art. 6  X",
                            format := some "full" }).formatted ≠ "Art. 6  X") ∧
    ((validateCitationTool cxStore "GG").map
        (fun r => r.results.normalized) = .ok (some "Gesetz Art. 5") ∧
      (formatCitationTool { citation := "Gesetz Art. 5",
                            format := some "full" }).formatted ≠ "Gesetz Art. 5") :=
  ⟨⟨by rfl, by decide⟩, ⟨by rfl, by decide⟩⟩

/-! ## Support lemmas for the round-trip analysis (C4) -/

theorem dropWhile_eq_self_of_head (p : Char → Bool) (l : List Char)
    (h : ∀ c, l.head? = some c → p c = false) : l.dropWhile p = l := by
  cases l with
  | nil => rfl
  | cons c t => simp [List.dropWhile_cons, h c rfl]

theorem takeWhile_eq_nil_of_head (p : Char → Bool) (l : List Char)
    (h : ∀ c, l.head? = some c → p c = false) : l.takeWhile p = [] := by
  cases l with
  | nil => rfl
  | cons c t => simp [List.takeWhile_cons, h c rfl]

theorem takeWhile_append_of_all (p : Char → Bool) (l₁ l₂ : List Char)
    (h : ∀ c ∈ l₁, p c = true) :
    (l₁ ++ l₂).takeWhile p = l₁ ++ l₂.takeWhile p := by
  induction l₁ with
  | nil => rfl
  | cons c t ih =>
    have hc := h c (by simp)
    have iht := ih (fun x hx => h x (by simp [hx]))
    simp [List.takeWhile_cons, hc, iht]

theorem dropWhile_append_of_all (p : Char → Bool) (l₁ l₂ : List Char)
    (h : ∀ c ∈ l₁, p c = true) :
    (l₁ ++ l₂).dropWhile p = l₂.dropWhile p := by
  induction l₁ with
  | nil => rfl
  | cons c t ih =>
    have hc := h c (by simp)
    have iht := ih (fun x hx => h x (by simp [hx]))
    simp [List.dropWhile_cons, hc, iht]

theorem takeWhile_ne_nil_head (p : Char → Bool) (l : List Char)
    (h : l.takeWhile p ≠ []) : ∃ c t, l = c :: t ∧ p c = true := by
  cases l with
  | nil => simp at h
  | cons c t =>
    refine ⟨c, t, rfl, ?_⟩
    by_contra hc
    simp only [Bool.not_eq_true] at hc
    simp [List.takeWhile_cons, hc] at h

/-- If `s` neither starts nor ends with JS whitespace, trimming is the
identity. -/
theorem jsTrim_eq_self (s : String)
    (h1 : ∀ c, s.data.head? = some c → isJsWs c = false)
    (h2 : ∀ c, s.data.getLast? = some c → isJsWs c = false) :
    jsTrim s = s := by
  unfold jsTrim
  rw [dropWhile_eq_self_of_head _ _ h1]
  rw [dropWhile_eq_self_of_head _ _ (fun c hc => h2 c (by
    rw [← List.head?_reverse]; exact hc))]
  rw [List.reverse_reverse]

theorem isJsWs_of_digit (c : Char) (h : isDigitChar c = true) :
    isJsWs c = false := by
  simp only [isDigitChar, decide_eq_true_eq] at h
  simp only [isJsWs, decide_eq_false_iff_not]
  omega

theorem not_digit_of_letter (c : Char) (h : isLetterChar c = true) :
    isDigitChar c = false := by
  simp only [isLetterChar, decide_eq_true_eq] at h
  simp only [isDigitChar, decide_eq_false_iff_not]
  omega

/-- `artNumSplit` on a digits-then-letters token followed by a space:
the capture is exactly the token. -/
theorem artNumSplit_refData (ref : String) (X : List Char)
    (h1 : ref.data.takeWhile isDigitChar ≠ [])
    (h2 : ∀ c ∈ ref.data.dropWhile isDigitChar, isLetterChar c = true) :
    artNumSplit (ref.data ++ ' ' :: X) = some (ref.data, ' ' :: X) := by
  have hdl : ref.data.takeWhile isDigitChar ++ ref.data.dropWhile isDigitChar
      = ref.data := List.takeWhile_append_dropWhile _ _
  have hdall : ∀ c ∈ ref.data.takeWhile isDigitChar, isDigitChar c = true :=
    fun c hc => List.mem_takeWhile_imp hc
  have hheadfact : ∀ c, (ref.data.dropWhile isDigitChar ++ ' ' :: X).head? =
      some c → isDigitChar c = false := by
    intro c hc
    cases hl : ref.data.dropWhile isDigitChar with
    | nil =>
      rw [hl] at hc
      simp at hc
      subst hc
      decide
    | cons c' t =>
      rw [hl] at hc
      simp at hc
      exact not_digit_of_letter c (hc ▸ h2 c' (by simp [hl]))
  have htk : (ref.data.dropWhile isDigitChar ++ ' ' :: X).takeWhile isDigitChar
      = [] := takeWhile_eq_nil_of_head _ _ hheadfact
  have hdr : (ref.data.dropWhile isDigitChar ++ ' ' :: X).dropWhile isDigitChar
      = ref.data.dropWhile isDigitChar ++ ' ' :: X :=
    dropWhile_eq_self_of_head _ _ hheadfact
  have htk2 : (' ' :: X).takeWhile isLetterChar = [] := by
    apply takeWhile_eq_nil_of_head
    intro c hc
    simp at hc
    subst hc
    decide
  have hdr2 : (' ' :: X).dropWhile isLetterChar = ' ' :: X := by
    apply dropWhile_eq_self_of_head
    intro c hc
    simp at hc
    subst hc
    decide
  have e1 : (ref.data ++ ' ' :: X).takeWhile isDigitChar =
      ref.data.takeWhile isDigitChar := by
    conv_lhs => rw [← hdl, List.append_assoc]
    rw [takeWhile_append_of_all _ _ _ hdall, htk, List.append_nil]
  have e2 : (ref.data ++ ' ' :: X).dropWhile isDigitChar =
      ref.data.dropWhile isDigitChar ++ ' ' :: X := by
    conv_lhs => rw [← hdl, List.append_assoc]
    rw [dropWhile_append_of_all _ _ _ hdall]
    exact hdr
  have e3 : (ref.data.dropWhile isDigitChar ++ ' ' :: X).takeWhile isLetterChar
      = ref.data.dropWhile isDigitChar := by
    rw [takeWhile_append_of_all _ _ _ h2, htk2, List.append_nil]
  have e4 : (ref.data.dropWhile isDigitChar ++ ' ' :: X).dropWhile isLetterChar
      = ' ' :: X := by
    rw [dropWhile_append_of_all _ _ _ h2, hdr2]
  unfold artNumSplit
  simp only [e1, e2, e3, e4]
  rw [if_neg h1, hdl]


/-- `\s+(.+)$` after the captured token: the single separating space is the
whole of `\s+`, and `(.+)$` takes the title when it is non-empty, free of
line terminators, and does not start with whitespace. -/
theorem wsTail_space (X : List Char) (hX0 : X ≠ [])
    (hXhead : ∀ c, X.head? = some c → isJsWs c = false)
    (hXdot : ∀ c ∈ X, isDotC c = true) :
    wsTail (' ' :: X) = some X := by
  have h1 : X.takeWhile isJsWs = [] := takeWhile_eq_nil_of_head _ _ hXhead
  have h2 : X.dropWhile isJsWs = X := dropWhile_eq_self_of_head _ _ hXhead
  have hm : (' ' :: X).takeWhile isJsWs = [' '] := by
    rw [List.takeWhile_cons]
    simp only [h1]
    rfl
  have hd : (' ' :: X).dropWhile isJsWs = X := by
    rw [List.dropWhile_cons]
    simp only [h2]
    rfl
  unfold wsTail
  rw [hm, hd]
  rw [if_neg (by simp : ¬(([' '] : List Char) = []))]
  rw [show ([' '] : List Char).reverse = [' '] from rfl]
  unfold wsBack
  rw [if_pos ⟨hX0, List.all_eq_true.mpr hXdot⟩]

/-- The article-first pattern on a normalized citation
`"Art. " ++ ref ++ " " ++ title`: group 1 is `ref`, group 2 is `title`. -/
theorem artFirstMatch_normalized (ref title : String)
    (h1 : ref.data.takeWhile isDigitChar ≠ [])
    (h2 : ∀ c ∈ ref.data.dropWhile isDigitChar, isLetterChar c = true)
    (ht0 : title.data ≠ [])
    (hthead : ∀ c, title.data.head? = some c → isJsWs c = false)
    (htd : ∀ c ∈ title.data, isDotC c = true) :
    artFirstMatch ("Art. " ++ ref ++ " " ++ title).data =
      some (ref.data, title.data) := by
  have hS : ("Art. " ++ ref ++ " " ++ title).data =
      'A' :: 'r' :: 't' :: '.' :: ' ' :: (ref.data ++ ' ' :: title.data) := by
    show (("Art. ".data ++ ref.data) ++ " ".data) ++ title.data = _
    simp [List.append_assoc]
  obtain ⟨rc, rt, hrc, hdig⟩ := takeWhile_ne_nil_head _ _ h1
  have hdropRef : (ref.data ++ ' ' :: title.data).dropWhile isJsWs =
      ref.data ++ ' ' :: title.data := by
    apply dropWhile_eq_self_of_head
    intro c hc
    rw [hrc] at hc
    simp at hc
    exact hc ▸ isJsWs_of_digit rc hdig
  have hstrip :
      stripArtDot ('A' :: 'r' :: 't' :: '.' :: ' ' :: (ref.data ++ ' ' :: title.data))
        = some (ref.data ++ ' ' :: title.data) := by
    show some ((' ' :: (ref.data ++ ' ' :: title.data)).dropWhile isJsWs) = _
    rw [List.dropWhile_cons]
    simp only [hdropRef]
    rfl
  rw [hS]
  unfold artFirstMatch
  rw [hstrip]
  simp only [artNumSplit_refData ref title.data h1 h2,
    wsTail_space title.data ht0 hthead htd]

theorem strMk_data (s : String) : String.mk s.data = s := rfl

/-- Every group produced by the article-number capture is one or more
digits followed by ASCII letters only. -/
theorem artNumSplit_shape {cs g rest : List Char}
    (h : artNumSplit cs = some (g, rest)) :
    g.takeWhile isDigitChar ≠ [] ∧
      ∀ c ∈ g.dropWhile isDigitChar, isLetterChar c = true := by
  unfold artNumSplit at h
  by_cases hds : cs.takeWhile isDigitChar = []
  · simp [hds] at h
  · simp only [if_neg hds, Option.some.injEq, Prod.mk.injEq] at h
    obtain ⟨hg, _⟩ := h
    subst hg
    have hdall : ∀ c ∈ cs.takeWhile isDigitChar, isDigitChar c = true :=
      fun c hc => List.mem_takeWhile_imp hc
    have hlall : ∀ c ∈ (cs.dropWhile isDigitChar).takeWhile isLetterChar,
        isLetterChar c = true := fun c hc => List.mem_takeWhile_imp hc
    constructor
    · obtain ⟨c, t, hct, hc⟩ := takeWhile_ne_nil_head _ _ hds
    -- the head of the capture is the head of the digit run
      have : cs.takeWhile isDigitChar = c :: t.takeWhile isDigitChar := by
        rw [hct, List.takeWhile_cons, if_pos hc]
      rw [this, List.cons_append, List.takeWhile_cons,
        if_pos (hdall c (by rw [this]; simp))]
      simp
    · intro c hc
      rw [dropWhile_append_of_all _ _ _ hdall] at hc
      exact hlall c ((List.dropWhile_sublist _).subset hc)

theorem artLastTail_shape {cs g : List Char} (h : artLastTail cs = some g) :
    g.takeWhile isDigitChar ≠ [] ∧
      ∀ c ∈ g.dropWhile isDigitChar, isLetterChar c = true := by
  unfold artLastTail at h
  dsimp only at h
  split at h
  · exact Option.noConfusion h
  · split at h
    · rename_i heq
      cases h
      exact artNumSplit_shape heq
    · exact Option.noConfusion h

theorem artLastGo_shape {preRev rest x g : List Char}
    (h : artLastGo preRev rest = some (x, g)) :
    g.takeWhile isDigitChar ≠ [] ∧
      ∀ c ∈ g.dropWhile isDigitChar, isLetterChar c = true := by
  induction rest generalizing preRev with
  | nil => exact Option.noConfusion h
  | cons c rest' ih =>
    rw [artLastGo] at h
    split at h
    · exact Option.noConfusion h
    · split at h
      · rename_i heq
        cases h
        exact artLastTail_shape heq
      · exact ih h

theorem srArtMatch_shape {cs num g : List Char}
    (h : srArtMatch cs = some (num, g)) :
    g.takeWhile isDigitChar ≠ [] ∧
      ∀ c ∈ g.dropWhile isDigitChar, isLetterChar c = true := by
  unfold srArtMatch at h
  dsimp only at h
  split at h
  · split at h
    · split at h
      · exact Option.noConfusion h
      · split at h
        · exact Option.noConfusion h
        · split at h
          · rename_i heq
            cases h
            exact artNumSplit_shape heq
          · exact Option.noConfusion h
    · exact Option.noConfusion h
  · exact Option.noConfusion h

/-- Every article reference the citation parser produces is one or more
digits followed by ASCII letters only. -/
theorem parseCitation_articleRef_shape {cit : String} {p : ParsedCitation}
    {a : String} (hp : parseCitation cit = some p)
    (ha : p.articleRef = some a) :
    a.data.takeWhile isDigitChar ≠ [] ∧
      ∀ c ∈ a.data.dropWhile isDigitChar, isLetterChar c = true := by
  unfold parseCitation at hp
  dsimp only at hp
  split at hp
  · rename_i g1 g2 heq
    cases hp
    simp only at ha
    cases ha
    unfold artFirstMatch at heq
    split at heq
    · exact Option.noConfusion heq
    · split at heq
      · exact Option.noConfusion heq
      · split at heq
        · exact Option.noConfusion heq
        · rename_i x1 g1x restx hnumEq x2 lawx hwsEq
          simp only [Option.some.injEq, Prod.mk.injEq] at heq
          obtain ⟨hg, hl⟩ := heq
          subst hg
          exact artNumSplit_shape hnumEq
  · split at hp
    · rename_i g1 g2 heq
      cases hp
      simp only at ha
      cases ha
      exact artLastGo_shape heq
    · split at hp
      · rename_i num g2 heq
        cases hp
        simp only at ha
        cases ha
        exact srArtMatch_shape heq
      · cases hp
        exact Option.noConfusion ha

theorem jsTrim_normalized (ref title : String)
    (ht0 : title.data ≠ [])
    (htlast : ∀ c, title.data.getLast? = some c → isJsWs c = false) :
    jsTrim ("Art. " ++ ref ++ " " ++ title) = "Art. " ++ ref ++ " " ++ title := by
  have hS : ("Art. " ++ ref ++ " " ++ title).data =
      'A' :: ('r' :: 't' :: '.' :: ' ' :: (ref.data ++ ' ' :: title.data)) := by
    show (("Art. ".data ++ ref.data) ++ " ".data) ++ title.data = _
    simp [List.append_assoc]
  apply jsTrim_eq_self
  · intro c hc
    rw [hS] at hc
    simp at hc
    subst hc
    decide
  · intro c hc
    rw [show ("Art. " ++ ref ++ " " ++ title).data =
        ("Art. " ++ ref ++ " ").data ++ title.data from rfl,
      List.getLast?_append_of_ne_nil _ ht0] at hc
    exact htlast c hc

/-- The full format of a provision-targeting normalized citation reproduces
it, provided the article token is digits-then-letters and the title is
non-empty, line-terminator-free, and not padded with whitespace. -/
theorem formatFull_normalized (ref title : String)
    (h1 : ref.data.takeWhile isDigitChar ≠ [])
    (h2 : ∀ c ∈ ref.data.dropWhile isDigitChar, isLetterChar c = true)
    (ht0 : title.data ≠ [])
    (hthead : ∀ c, title.data.head? = some c → isJsWs c = false)
    (htlast : ∀ c, title.data.getLast? = some c → isJsWs c = false)
    (htd : ∀ c ∈ title.data, isDotC c = true) :
    (formatCitationTool { citation := "Art. " ++ ref ++ " " ++ title,
                          format := some "full" }).formatted =
      "Art. " ++ ref ++ " " ++ title := by
  unfold formatCitationTool
  dsimp only
  rw [jsTrim_normalized ref title ht0 htlast]
  rw [artFirstMatch_normalized ref title h1 h2 ht0 hthead htd]
  rfl

/-- The full format of a bare (trim-invariant) document title that matches
neither article pattern is the title itself. -/
theorem formatFull_bare (t : String)
    (htrim : jsTrim t = t)
    (hb1 : artFirstMatch t.data = none)
    (hb2 : artLastMatch t.data = none) :
    (formatCitationTool { citation := t, format := some "full" }).formatted = t := by
  unfold formatCitationTool
  dsimp only
  rw [htrim, hb1, hb2]
  rfl

theorem goodTitle_head {t : String} (h : goodTitle t) :
    ∀ c, t.data.head? = some c → isJsWs c = false := by
  intro c hc
  have h3 := h.2.2.1
  rw [hc] at h3
  simpa using h3

theorem goodTitle_last {t : String} (h : goodTitle t) :
    ∀ c, t.data.getLast? = some c → isJsWs c = false := by
  intro c hc
  have h4 := h.2.2.2
  rw [hc] at h4
  simpa using h4

/-- C4, amended: `format_citation(·, "full")` reproduces every string that
`validate_citation` produced as its `normalized` field, provided every
stored title is non-empty, free of line terminators, not padded with
whitespace, and does not itself parse as an article citation — conditions
the counterexample shows cannot be dropped. -/
theorem format_roundtrip_amended (s : Store) (input : String)
    (r : ToolResponse ValidateCitationResult) (ns : String)
    (hok : validateCitationTool s input = .ok r)
    (hns : r.results.normalized = some ns)
    (hgood : ∀ d ∈ s.docs, goodTitle d.title)
    (hbare : ∀ d ∈ s.docs, titleNotCitation d.title) :
    (formatCitationTool { citation := ns, format := some "full" }).formatted
      = ns := by
  obtain ⟨p, hp⟩ : ∃ p, parseCitation input = some p := by
    rcases hq : parseCitation input with _ | p
    · exact absurd (parseCitation_isSome input) (by simp [hq])
    · exact ⟨p, rfl⟩
  unfold validateCitationTool at hok
  simp only [validateCitationToolRun, hp, resolveDocumentIdRun_eq,
    generateResponseMetadataRun_eq, dbFindDoc, dbFindProvision] at hok
  cases hr : resolveDocumentId s p.documentRef with
  | none =>
    simp only [hr] at hok
    cases hok
    simp at hns
  | some docId =>
    simp only [hr] at hok
    cases hfe : s.docs.find? (fun d => d.id == docId) with
    | none =>
      simp only [hfe] at hok
      exact Except.noConfusion hok
    | some doc =>
      simp only [hfe] at hok
      have hdmem := List.mem_of_find?_eq_some hfe
      have hg := hgood doc hdmem
      cases ha : p.articleRef with
      | none =>
        simp only [ha] at hok
        cases hok
        simp only at hns
        cases hns
        obtain ⟨hb1, hb2⟩ := hbare doc hdmem
        exact formatFull_bare doc.title
          (jsTrim_eq_self _ (goodTitle_head hg) (goodTitle_last hg)) hb1 hb2
      | some articleRef =>
        simp only [ha] at hok
        cases hpr : s.provisions.find? (provisionWhere docId articleRef) with
        | none =>
          simp only [hpr] at hok
          cases hok
          simp at hns
        | some prov =>
          simp only [hpr] at hok
          cases hok
          simp only at hns
          cases hns
          obtain ⟨hs1, hs2⟩ := parseCitation_articleRef_shape hp ha
          exact formatFull_normalized articleRef doc.title hs1 hs2 hg.1
            (goodTitle_head hg) (goodTitle_last hg) hg.2.1

/-- C4 witness: the amended theorem applied to the sample store at
`"Art. 1 DSG"`, whose normalized citation round-trips. -/
theorem format_roundtrip_amended_witness :
    (formatCitationTool { citation := "Art. 1 Bundesgesetz über den Datenschutz",
                          format := some "full" }).formatted
      = "Art. 1 Bundesgesetz über den Datenschutz" :=
  format_roundtrip_amended sampleStore "Art. 1 DSG"
    { results := { valid := true, citation := "Art. 1 DSG",
                   normalized := some "Art. 1 Bundesgesetz über den Datenschutz",
                   document_id := some "sr-235-1",
                   document_title := some "Bundesgesetz über den Datenschutz",
                   provision_ref := some "art1", status := some "in_force",
                   warnings := [] },
      respMetadata := generateResponseMetadata sampleStore }
    "Art. 1 Bundesgesetz über den Datenschutz"
    (by rfl) rfl (by decide) (by decide)
